import Mathlib

/-!
Shallow embedding of the VSModNavigator reference resolver
(`src/extension.ts`): the JSON-with-comments tree model, the inline
JSON-pointer walk of `resolvePathDefinition`, the cross-reference
resolution of `resolveVintageStoryPath`, and the domain existence check
of `checkDomainExists`.  JavaScript strings are modelled as `List Char`;
the filesystem and directory listing are abstract functions supplied as
a `FileSystem` record.  Machine behaviour that matters is modelled
explicitly: `String.prototype.split`, `parseInt` (prefix parse, sign,
hex prefix), and JavaScript's out-of-range array indexing yielding
`undefined`.
-/

/-- JavaScript `s.split(c)` for a single-character separator: `n`
separator occurrences yield `n + 1` (possibly empty) fields. -/
def splitOnChar (c : Char) : List Char → List (List Char)
  | [] => [[]]
  | x :: xs =>
    match splitOnChar c xs with
    | [] => [[x]]
    | y :: ys => if x = c then [] :: y :: ys else (x :: y) :: ys

theorem splitOnChar_ne_nil (c : Char) (l : List Char) : splitOnChar c l ≠ [] := by
  cases l with
  | nil => simp [splitOnChar]
  | cons x xs =>
    simp only [splitOnChar]
    cases h : splitOnChar c xs with
    | nil => simp
    | cons y ys =>
      by_cases hx : x = c <;> simp [hx]

theorem length_splitOnChar (c : Char) (l : List Char) :
    (splitOnChar c l).length = l.count c + 1 := by
  induction l with
  | nil => simp [splitOnChar]
  | cons x xs ih =>
    simp only [splitOnChar]
    cases h : splitOnChar c xs with
    | nil => exact absurd h (splitOnChar_ne_nil c xs)
    | cons y ys =>
      rw [h] at ih
      simp only [List.length_cons] at ih
      by_cases hx : x = c
      · simp [hx, List.count_cons]
        omega
      · simp [hx, List.count_cons]
        omega

/-- Node.js `path.join` on POSIX for the fixed shapes used by the
extension: components joined with `/`. -/
def joinPath (parts : List (List Char)) : List Char :=
  List.intercalate ['/'] parts

/-- Value of a character as a digit in the given radix, as JavaScript
`parseInt` accepts it (`0-9`, `a-z`, `A-Z` below the radix). -/
def digitValue (radix : Nat) (ch : Char) : Option Nat :=
  let v : Option Nat :=
    if '0' ≤ ch ∧ ch ≤ '9' then some (ch.toNat - '0'.toNat)
    else if 'a' ≤ ch ∧ ch ≤ 'z' then some (ch.toNat - 'a'.toNat + 10)
    else if 'A' ≤ ch ∧ ch ≤ 'Z' then some (ch.toNat - 'A'.toNat + 10)
    else none
  match v with
  | some n => if n < radix then some n else none
  | none => none

def digitsToNat (radix : Nat) (ds : List Char) : Nat :=
  ds.foldl (fun acc ch => acc * radix + (digitValue radix ch).getD 0) 0

def isJsWhitespace (ch : Char) : Bool :=
  ch = ' ' || ch = '\t' || ch = '\n' || ch = '\r' || ch = '\x0b' || ch = '\x0c'

/-- JavaScript `parseInt(s)` with no radix argument: skip leading
whitespace, optional single sign, optional `0x`/`0X` prefix selecting
radix 16, then the longest prefix of digits of the radix; `none` models
`NaN` (no digits at all). -/
def jsParseInt (s : List Char) : Option Int :=
  let s1 := s.dropWhile isJsWhitespace
  let signAndRest : Int × List Char :=
    match s1 with
    | '-' :: rest => (-1, rest)
    | '+' :: rest => (1, rest)
    | _ => (1, s1)
  let radixAndRest : Nat × List Char :=
    match signAndRest.2 with
    | '0' :: 'x' :: rest => (16, rest)
    | '0' :: 'X' :: rest => (16, rest)
    | _ => (10, signAndRest.2)
  let ds := radixAndRest.2.takeWhile (fun ch => (digitValue radixAndRest.1 ch).isSome)
  if ds.isEmpty then none
  else some (signAndRest.1 * Int.ofNat (digitsToNat radixAndRest.1 ds))

/-- Parsed JSON-with-comments tree node, as produced by
`jsonc.parseTree`: every node carries its `offset` and `length` into the
source text; objects carry their property list as (key node, value node)
pairs. -/
inductive JNode where
  | jstring (off len : Nat) (value : List Char)
  | jnumber (off len : Nat)
  | jbool (off len : Nat) (value : Bool)
  | jnull (off len : Nat)
  | jarray (off len : Nat) (children : List JNode)
  | jobject (off len : Nat) (props : List (JNode × JNode))

def nodeOffset : JNode → Nat
  | .jstring o _ _ => o
  | .jnumber o _ => o
  | .jbool o _ _ => o
  | .jnull o _ => o
  | .jarray o _ _ => o
  | .jobject o _ _ => o

def nodeLength : JNode → Nat
  | .jstring _ l _ => l
  | .jnumber _ l => l
  | .jbool _ l _ => l
  | .jnull _ l => l
  | .jarray _ l _ => l
  | .jobject _ l _ => l

example : splitOnChar ':' ("a:b:c".data) = ["a".data, "b".data, "c".data] := by decide
example : splitOnChar ':' ("".data) = ["".data] := by decide
example : jsParseInt ("2abc".data) = some 2 := by decide
example : jsParseInt ("-1".data) = some (-1) := by decide
example : jsParseInt ("abc".data) = none := by decide
example : jsParseInt ("0x10".data) = some 16 := by decide
example : jsParseInt (" 7 ".data) = some 7 := by decide

/-- An open workspace folder as reported by the editor: its display
`name` and its filesystem root path (`folder.uri.fsPath`). -/
structure WorkspaceFolder where
  name : List Char
  fsPath : List Char

/-- Host capabilities the resolver reads: `existsFile` models
`fs.existsSync`; `readDirectory` models
`vscode.workspace.fs.readDirectory` (entry name, is-directory flag),
with `none` modelling a thrown error; `parseTree` models
`openTextDocument` followed by `jsonc.parseTree` on the target path,
with `none` modelling a text that yields no tree. -/
structure FileSystem where
  existsFile : List Char → Bool
  readDirectory : List Char → Option (List (List Char × Bool))
  parseTree : List Char → Option JNode

/-- A returned `vscode.Location`: target file plus the highlighted
range as a start/end offset pair (`positionAt` is an offset/position
bijection, so ranges are modelled by their offsets; a bare `Position`
is the zero-width range at that offset). -/
structure Location where
  uri : List Char
  rangeStart : Nat
  rangeEnd : Nat
deriving DecidableEq

/-- The test `keyNode.value === key` of `findProperty`: only a string
node can be strictly equal to the string `key`. -/
def keyMatches (key : List Char) : JNode → Bool
  | .jstring _ _ v => v == key
  | _ => false

/-- `findProperty(node, key)`: on an object node, the first property
(in document order) whose key node's value strictly equals `key`. -/
def findProperty (node : JNode) (key : List Char) : Option (JNode × JNode) :=
  match node with
  | .jobject _ _ props => props.find? (fun p => keyMatches key p.1)
  | _ => none

/-- One iteration of the pointer-walk loop in `resolvePathDefinition`
(`for (const part of pathParts)`), including the `if (!currentNode)
break` guard.  On an array node the segment goes through
`parseInt`; a negative index reads `children[index]` as `undefined`.
On an object node a found property advances to its key node
(`property.children[0]`).  Any other node kind fails. -/
def walkStep (current : Option JNode) (part : List Char) : Option JNode :=
  match current with
  | none => none
  | some node =>
    match node with
    | .jarray _ _ children =>
      match jsParseInt part with
      | none => none
      | some index =>
        if index < (children.length : Int) then
          if 0 ≤ index then children[index.toNat]? else none
        else none
    | .jobject o l props =>
      match findProperty (.jobject o l props) part with
      | some property => some property.1
      | none => none
    | _ => none

/-- `jsonPointer.split('/').filter(p => p.length > 0)`. -/
def pointerParts (jsonPointer : List Char) : List (List Char) :=
  (splitOnChar '/' jsonPointer).filter (fun p => p.length > 0)

/-- The whole pointer walk of `resolvePathDefinition` (lines 173-202):
fold the loop body over the filtered segments starting from the root;
`none` is the `currentNode = undefined` failure state. -/
def walkPointer (tree : JNode) (jsonPointer : List Char) : Option JNode :=
  (pointerParts jsonPointer).foldl walkStep (some tree)

/-- `isMatchingFolder` of `resolveVintageStoryPath` /
`checkDomainExists`: name equals the domain, or starts with the domain
plus `_` or `-`. -/
def isMatchingFolder (domain name : List Char) : Bool :=
  name == domain
    || (domain ++ ['_']).isPrefixOf name
    || (domain ++ ['-']).isPrefixOf name

/-- Strategy 1 of `resolveVintageStoryPath` for one folder: if the
folder's own name matches, test the full candidate
`<folder>/assets/<domain>/<relativePath>`. -/
def strategy1 (domain relativePath : List Char) (fs : FileSystem)
    (folder : WorkspaceFolder) : Option (List Char) :=
  if isMatchingFolder domain folder.name then
    let potentialPath := joinPath [folder.fsPath, "assets".data, domain, relativePath]
    if fs.existsFile potentialPath then some potentialPath else none
  else none

/-- The inner subdirectory loop of strategy 2: first directory entry
whose name matches the domain and whose full candidate
`<folder>/<name>/assets/<domain>/<relativePath>` exists. -/
def subdirHit (domain relativePath base : List Char) (fs : FileSystem) :
    List (List Char × Bool) → Option (List Char)
  | [] => none
  | entry :: rest =>
    if entry.2 && isMatchingFolder domain entry.1 then
      let potentialPath := joinPath [base, entry.1, "assets".data, domain, relativePath]
      if fs.existsFile potentialPath then some potentialPath
      else subdirHit domain relativePath base fs rest
    else subdirHit domain relativePath base fs rest

/-- Strategy 2 of `resolveVintageStoryPath` for one folder: list its
immediate entries (a read error is caught and ignored) and scan them. -/
def strategy2 (domain relativePath : List Char) (fs : FileSystem)
    (folder : WorkspaceFolder) : Option (List Char) :=
  match fs.readDirectory folder.fsPath with
  | none => none
  | some entries => subdirHit domain relativePath folder.fsPath fs entries

/-- The folder loop of `resolveVintageStoryPath`: for each workspace
folder in editor order, strategy 1 then strategy 2, then the next
folder. -/
def resolveInFolders (domain relativePath : List Char) (fs : FileSystem) :
    List WorkspaceFolder → Option (List Char)
  | [] => none
  | folder :: rest =>
    match strategy1 domain relativePath fs folder with
    | some p => some p
    | none =>
      match strategy2 domain relativePath fs folder with
      | some p => some p
      | none => resolveInFolders domain relativePath fs rest

/-- `resolveVintageStoryPath(pathStr)`: split on `:`, require exactly
two parts, then run the folder loop. -/
def resolveVintageStoryPath (pathStr : List Char)
    (folders : List WorkspaceFolder) (fs : FileSystem) : Option (List Char) :=
  match splitOnChar ':' pathStr with
  | [domain, relativePath] => resolveInFolders domain relativePath fs folders
  | _ => none

/-- The subdirectory loop of `checkDomainExists`: some directory entry
matches the domain and contains `assets/<domain>`. -/
def domainSubdirHit (domain base : List Char) (fs : FileSystem) :
    List (List Char × Bool) → Bool
  | [] => false
  | entry :: rest =>
    if entry.2 && isMatchingFolder domain entry.1
        && fs.existsFile (joinPath [base, entry.1, "assets".data, domain]) then true
    else domainSubdirHit domain base fs rest

/-- `checkDomainExists(domain)`: some workspace folder either itself
matches the domain and contains `assets/<domain>`, or has an immediate
subdirectory that does (directory read errors ignored). -/
def checkDomainExists (domain : List Char) (fs : FileSystem) :
    List WorkspaceFolder → Bool
  | [] => false
  | folder :: rest =>
    if isMatchingFolder domain folder.name
        && fs.existsFile (joinPath [folder.fsPath, "assets".data, domain]) then true
    else if (match fs.readDirectory folder.fsPath with
             | none => false
             | some entries => domainSubdirHit domain folder.fsPath fs entries) then true
    else checkDomainExists domain fs rest

/-- `resolvePathDefinition(pathNode, jsonPointer)`: `parent` is
`pathNode.parent?.parent` (the object enclosing the `file`/`path`
properties).  Find the sibling `file` property, require its value to be
a string, resolve it as a cross-reference, parse the target, walk the
pointer; a missing tree or a failed walk yields the top-of-file
location `Position(0, 0)`. -/
def resolvePathDefinition (parent : Option JNode) (jsonPointer : List Char)
    (folders : List WorkspaceFolder) (fs : FileSystem) : Option Location :=
  match parent with
  | some (.jobject po pl props) =>
    match findProperty (.jobject po pl props) ("file".data) with
    | none => none
    | some fileProperty =>
      match fileProperty.2 with
      | .jstring _ _ fileString =>
        match resolveVintageStoryPath fileString folders fs with
        | none => none
        | some target =>
          match fs.parseTree target with
          | none => some ⟨target, 0, 0⟩
          | some tree =>
            match walkPointer tree jsonPointer with
            | some node => some ⟨target, nodeOffset node, nodeOffset node + nodeLength node⟩
            | none => some ⟨target, 0, 0⟩
      | _ => none
  | _ => none

/-- Written from the spec's words for comparison (Domain Locator,
section 4.1): phase 1 scans every open folder's own name first,
requiring `<folder>/assets/<domain>` to exist; only then does phase 2
scan every folder's immediate subdirectories, requiring
`<folder>/<sub>/assets/<domain>`; first satisfying match in folder
order wins. -/
def spec_locateDomain (domain : List Char) (folders : List WorkspaceFolder)
    (fs : FileSystem) : Option (List Char) :=
  match folders.find? (fun f => isMatchingFolder domain f.name
      && fs.existsFile (joinPath [f.fsPath, "assets".data, domain])) with
  | some f => some f.fsPath
  | none =>
    folders.findSome? (fun f =>
      (((fs.readDirectory f.fsPath).getD []).find? (fun entry =>
          entry.2 && isMatchingFolder domain entry.1
            && fs.existsFile (joinPath [f.fsPath, entry.1, "assets".data, domain]))).map
        (fun entry => joinPath [f.fsPath, entry.1]))

/-- Written from the spec's words for comparison (Cross-Reference
Resolution, section 4.2): split the token, run the Domain Locator to
pick the single owning directory, compute the one candidate
`<ownerDir>/assets/<domain>/<relativePath>`, and succeed only if that
candidate exists. -/
def spec_resolveReference (token : List Char) (folders : List WorkspaceFolder)
    (fs : FileSystem) : Option (List Char) :=
  match splitOnChar ':' token with
  | [domain, relativePath] =>
    match spec_locateDomain domain folders fs with
    | none => none
    | some ownerDir =>
      let candidate := joinPath [ownerDir, "assets".data, domain, relativePath]
      if fs.existsFile candidate then some candidate else none
  | _ => none

/-- Written from the claim's words for comparison (C4 ordering): run
strategy 1 across all folders first, and only after exhausting it run
strategy 2 across all folders. -/
def twoPhaseResolve (token : List Char) (folders : List WorkspaceFolder)
    (fs : FileSystem) : Option (List Char) :=
  match splitOnChar ':' token with
  | [domain, relativePath] =>
    match folders.findSome? (strategy1 domain relativePath fs) with
    | some p => some p
    | none => folders.findSome? (strategy2 domain relativePath fs)
  | _ => none

/-- Written from the claim's words for comparison (C5): a segment
"parses as a non-negative integer" when it is a nonempty string of
decimal digits. -/
def specParseNonNegInt (s : List Char) : Option Nat :=
  if !s.isEmpty && s.all Char.isDigit then some (digitsToNat 10 s) else none

/-- Every candidate file path the code may test for one token, in the
order the code tests them: per folder, the strategy-1 candidate (when
the folder's own name matches) followed by the strategy-2 candidates of
its matching subdirectory entries. -/
def candidateList (domain relativePath : List Char)
    (folders : List WorkspaceFolder) (fs : FileSystem) : List (List Char) :=
  folders.flatMap (fun f =>
    (if isMatchingFolder domain f.name then
        [joinPath [f.fsPath, "assets".data, domain, relativePath]]
      else [])
      ++ ((fs.readDirectory f.fsPath).getD []).filterMap (fun entry =>
        if entry.2 && isMatchingFolder domain entry.1 then
          some (joinPath [f.fsPath, entry.1, "assets".data, domain, relativePath])
        else none))

theorem foldl_walkStep_none (segs : List (List Char)) :
    segs.foldl walkStep none = none := by
  induction segs with
  | nil => rfl
  | cons s rest ih => exact ih

theorem keyMatches_true_iff (key : List Char) (n : JNode) :
    keyMatches key n = true ↔ ∃ so sl, n = .jstring so sl key := by
  cases n <;> simp [keyMatches]

theorem walkStep_object_cases (o l : Nat) (props : List (JNode × JNode))
    (seg : List Char) :
    walkStep (some (.jobject o l props)) seg = none ∨
    ∃ so sl, walkStep (some (.jobject o l props)) seg = some (.jstring so sl seg) := by
  cases hf : findProperty (.jobject o l props) seg with
  | none =>
    left
    simp [walkStep, hf]
  | some property =>
    right
    have hf2 : List.find? (fun p => keyMatches seg p.1) props = some property := hf
    have hmatch := List.find?_some hf2
    obtain ⟨so, sl, hkey⟩ := (keyMatches_true_iff seg property.1).mp hmatch
    exact ⟨so, sl, by simp [walkStep, hf, hkey]⟩

/-- C6: a pointer segment found among an object node's property keys
advances the walk to that property's key node, not its value node. -/
theorem object_step_advances_to_key_node (o l : Nat)
    (props : List (JNode × JNode)) (seg : List Char) (k v : JNode)
    (h : findProperty (.jobject o l props) seg = some (k, v)) :
    walkStep (some (.jobject o l props)) seg = some k := by
  simp [walkStep, h]

def c6key : JNode := .jstring 2 13 ("ingredients".data)
def c6val : JNode := .jarray 17 10 [.jstring 18 3 ("a".data), .jstring 22 3 ("b".data)]
def c6obj : JNode := .jobject 1 27 [(c6key, c6val)]
def c6tree : JNode := .jarray 0 29 [c6obj]

/-- C6 witness: walking `0/ingredients` against
`[{"ingredients": ["a","b"]}]` lands on the key node of
`"ingredients"`, via the object-step theorem for the second segment. -/
theorem object_step_advances_to_key_node_witness :
    walkPointer c6tree ("0/ingredients".data) = some c6key ∧
    walkStep (some c6obj) ("ingredients".data) = some c6key :=
  ⟨rfl, object_step_advances_to_key_node 1 27 [(c6key, c6val)]
    ("ingredients".data) c6key c6val rfl⟩

/-- C9: whenever the walk applies a segment to an object node and at
least one more segment follows, the whole pointer walk fails: the
object step moves (at best) to the property's key node, a string
scalar, and the next segment hits the scalar-failure branch. -/
theorem object_segment_mid_pointer_fails (root : JNode)
    (jsonPointer : List Char) (pre : List (List Char))
    (seg nextSeg : List Char) (rest : List (List Char)) (o l : Nat)
    (props : List (JNode × JNode))
    (hsplit : pointerParts jsonPointer = pre ++ seg :: nextSeg :: rest)
    (hpre : pre.foldl walkStep (some root) = some (.jobject o l props)) :
    walkPointer root jsonPointer = none := by
  unfold walkPointer
  rw [hsplit, List.foldl_append, hpre, List.foldl_cons]
  rcases walkStep_object_cases o l props seg with hstep | ⟨so, sl, hstep⟩
  · rw [hstep]
    exact foldl_walkStep_none (nextSeg :: rest)
  · rw [hstep, List.foldl_cons]
    have hnext : walkStep (some (.jstring so sl seg)) nextSeg = none := rfl
    rw [hnext]
    exact foldl_walkStep_none rest

def c9keyB : JNode := .jstring 8 3 ("b".data)
def c9key : JNode := .jstring 2 3 ("a".data)
def c9val : JNode := .jobject 7 9 [(c9keyB, .jnumber 13 1)]
def c9obj : JNode := .jobject 1 16 [(c9key, c9val)]
def c9root : JNode := .jarray 0 18 [c9obj]

/-- C9 witness: walking `0/a/b` against `[{"a": {"b": 1}}]` fails
(yielding the provider's fallback), because the object-key segment `a`
is not last. -/
theorem object_segment_mid_pointer_fails_witness :
    walkPointer c9root ("0/a/b".data) = none :=
  object_segment_mid_pointer_fails c9root ("0/a/b".data) ["0".data]
    ("a".data) ("b".data) [] 1 16 [(c9key, c9val)] (by decide) rfl

/-- C10: `findProperty` returns the first property in document order
whose key matches, even when later duplicates match as well; hence the
pointer walk's object step advances to the first duplicate's key
node. -/
theorem findProperty_first_match (o l : Nat)
    (pre post : List (JNode × JNode)) (p : JNode × JNode) (key : List Char)
    (hpre : ∀ q ∈ pre, keyMatches key q.1 = false)
    (hp : keyMatches key p.1 = true) :
    findProperty (.jobject o l (pre ++ p :: post)) key = some p ∧
    walkStep (some (.jobject o l (pre ++ p :: post))) key = some p.1 := by
  have hfind : (pre ++ p :: post).find? (fun q => keyMatches key q.1) = some p := by
    induction pre with
    | nil => simp [List.find?_cons, hp]
    | cons q qs ih =>
      have hq : keyMatches key q.1 = false := hpre q (by simp)
      rw [List.cons_append, List.find?_cons, hq]
      exact ih (fun r hr => hpre r (by simp [hr]))
  constructor
  · exact hfind
  · have : findProperty (.jobject o l (pre ++ p :: post)) key = some p := hfind
    simp [walkStep, this]

def c10dup1 : JNode := .jstring 9 3 ("a".data)
def c10dup2 : JNode := .jstring 16 3 ("a".data)
def c10other : JNode := .jstring 1 3 ("b".data)
def c10props : List (JNode × JNode) :=
  [(c10other, .jnumber 6 1), (c10dup1, .jnumber 14 1), (c10dup2, .jnumber 21 1)]

/-- C10 witness: in `{"b": 0, "a": 1, "a": 2}` the lookup of `a`
returns the first `a` property and the walk's object step lands on its
key node. -/
theorem findProperty_first_match_witness :
    findProperty (.jobject 0 23 c10props) ("a".data) = some (c10dup1, .jnumber 14 1) ∧
    walkStep (some (.jobject 0 23 c10props)) ("a".data) = some c10dup1 :=
  findProperty_first_match 0 23 [(c10other, .jnumber 6 1)]
    [(c10dup2, .jnumber 21 1)] (c10dup1, .jnumber 14 1) ("a".data)
    (by decide) (by decide)

/-- C5 (amended): the array step succeeds exactly when JavaScript
`parseInt` extracts a non-negative integer from the segment (a numeric
prefix suffices, so `"2abc"` parses as `2`) that is within the
child-list bounds; a `NaN` parse, an out-of-range index, or a negative
index (whose JavaScript element read yields `undefined`) all fail. -/
theorem array_step_succeeds_iff (o l : Nat) (children : List JNode)
    (part : List Char) :
    (walkStep (some (.jarray o l children)) part).isSome = true ↔
    ∃ i : Nat, jsParseInt part = some (i : Int) ∧ i < children.length := by
  cases hp : jsParseInt part with
  | none => simp [walkStep, hp]
  | some index =>
    constructor
    · intro h
      simp only [walkStep, hp] at h
      by_cases h1 : index < (children.length : Int)
      · by_cases h2 : 0 ≤ index
        · refine ⟨index.toNat, ?_, by omega⟩
          rw [Int.toNat_of_nonneg h2]
        · simp [h1, h2] at h
      · simp [h1] at h
    · rintro ⟨i, hi, hlen⟩
      injection hi with hi2
      subst hi2
      have h1 : ((i : Nat) : Int) < (children.length : Int) := by omega
      have h2 : (0 : Int) ≤ ((i : Nat) : Int) := by omega
      simp only [walkStep, hp, if_pos h1, if_pos h2]
      have h3 : ((i : Nat) : Int).toNat = i := by omega
      rw [h3]
      simp [List.getElem?_eq_getElem hlen]

def c5arr : JNode := .jarray 0 9 [.jnumber 1 1, .jnumber 4 1, .jnumber 7 1]

/-- C5 counterexample: against the 3-element array `[1, 2, 3]` the
segment `"2abc"` does not parse as a non-negative integer, yet the
array step succeeds (JavaScript `parseInt("2abc")` is `2`), advancing
to the third child — refuting "succeeds if and only if the segment
parses as a non-negative integer within bounds". -/
theorem array_step_loose_parse_counterexample :
    walkStep (some c5arr) ("2abc".data) = some (.jnumber 7 1) ∧
    specParseNonNegInt ("2abc".data) = none ∧
    ¬(((walkStep (some c5arr) ("2abc".data)).isSome = true) ↔
      ∃ i : Nat, specParseNonNegInt ("2abc".data) = some i ∧ i < (3 : Nat)) := by
  refine ⟨rfl, rfl, fun h => ?_⟩
  obtain ⟨i, hi, _⟩ := h.mp rfl
  rw [show specParseNonNegInt ("2abc".data) = none from rfl] at hi
  exact Option.noConfusion hi

/-- C1 (amended): when the pointer walk fails partway, the walk itself
yields absent, and the definition provider falls back to the zero-width
location at offset 0 (top) of the target file — not to a range spanning
the root node. -/
theorem walk_failure_yields_top_of_file (po pl : Nat)
    (props : List (JNode × JNode)) (jsonPointer : List Char)
    (folders : List WorkspaceFolder) (fs : FileSystem) (k : JNode)
    (so sl : Nat) (s target : List Char) (tree : JNode)
    (h1 : findProperty (.jobject po pl props) ("file".data) = some (k, .jstring so sl s))
    (h2 : resolveVintageStoryPath s folders fs = some target)
    (h3 : fs.parseTree target = some tree)
    (h4 : walkPointer tree jsonPointer = none) :
    resolvePathDefinition (some (.jobject po pl props)) jsonPointer folders fs =
      some ⟨target, 0, 0⟩ := by
  simp [resolvePathDefinition, h1, h2, h3, h4]

def c1root : JNode := .jarray 0 6 [.jnumber 1 1, .jnumber 4 1]
def c1target : List Char := "/ws/foo/assets/foo/a.json".data
def c1fs : FileSystem :=
  ⟨fun p => p == c1target, fun _ => none,
   fun p => if p == c1target then some c1root else none⟩
def c1folders : List WorkspaceFolder := [⟨"foo".data, "/ws/foo".data⟩]
def c1parent : JNode :=
  .jobject 0 40 [(.jstring 1 6 ("file".data), .jstring 9 12 ("foo:a.json".data))]

/-- C1 witness: pointer `5` against the 2-element array `[1, 2]` in the
resolved target file makes the provider return the zero-width
top-of-file location. -/
theorem walk_failure_yields_top_of_file_witness :
    resolvePathDefinition (some c1parent) ("5".data) c1folders c1fs =
      some ⟨c1target, 0, 0⟩ :=
  walk_failure_yields_top_of_file 0 40
    [(.jstring 1 6 ("file".data), .jstring 9 12 ("foo:a.json".data))]
    ("5".data) c1folders c1fs (.jstring 1 6 ("file".data)) 9 12
    ("foo:a.json".data) c1target c1root rfl rfl rfl rfl

/-- C1 counterexample: walking `5` against the 2-element array yields
absent (not the document root node), and the returned location is the
zero-width `(0, 0)` range, which does not span the root node's
offset/length range `(0, 6)`. -/
theorem walk_failure_location_counterexample :
    walkPointer c1root ("5".data) = none ∧
    resolvePathDefinition (some c1parent) ("5".data) c1folders c1fs =
      some ⟨c1target, 0, 0⟩ ∧
    ¬(walkPointer c1root ("5".data) = some c1root) ∧
    resolvePathDefinition (some c1parent) ("5".data) c1folders c1fs ≠
      some ⟨c1target, nodeOffset c1root, nodeOffset c1root + nodeLength c1root⟩ := by
  refine ⟨rfl, rfl, fun h => ?_, by decide⟩
  rw [show walkPointer c1root ("5".data) = none from rfl] at h
  exact Option.noConfusion h

/-- C2 (amended): a definition request on a `path` property returns no
location when the enclosing object has no sibling `file` property or
when the referenced target file cannot be resolved; but when the target
file resolves and its text yields no tree, the provider returns the
zero-width top-of-file location in the target file rather than nothing. -/
theorem path_resolution_failure_modes (parent : JNode)
    (jsonPointer : List Char) (folders : List WorkspaceFolder)
    (fs : FileSystem) :
    (findProperty parent ("file".data) = none →
      resolvePathDefinition (some parent) jsonPointer folders fs = none) ∧
    (∀ (k : JNode) (so sl : Nat) (s : List Char),
      findProperty parent ("file".data) = some (k, .jstring so sl s) →
      resolveVintageStoryPath s folders fs = none →
      resolvePathDefinition (some parent) jsonPointer folders fs = none) ∧
    (∀ (k : JNode) (so sl : Nat) (s target : List Char),
      findProperty parent ("file".data) = some (k, .jstring so sl s) →
      resolveVintageStoryPath s folders fs = some target →
      fs.parseTree target = none →
      resolvePathDefinition (some parent) jsonPointer folders fs =
        some ⟨target, 0, 0⟩) := by
  refine ⟨?_, ?_, ?_⟩
  · intro h
    cases parent <;> simp [resolvePathDefinition, h]
  · intro k so sl s h1 h2
    cases parent <;> simp [findProperty] at h1
    case jobject o l props => simp [resolvePathDefinition, findProperty, h1, h2]
  · intro k so sl s target h1 h2 h3
    cases parent <;> simp [findProperty] at h1
    case jobject o l props => simp [resolvePathDefinition, findProperty, h1, h2, h3]

def c2target : List Char := "ws/m_1/assets/m/x.json".data
def c2fs : FileSystem :=
  ⟨fun p => p == c2target,
   fun p => if p == "ws".data then some [("m_1".data, true)] else none,
   fun _ => none⟩
def c2folders : List WorkspaceFolder := [⟨"ws".data, "ws".data⟩]
def c2parentA : JNode := .jobject 0 10 [(.jstring 1 6 ("path".data), .jstring 9 2 ("/0".data))]
def c2parentB : JNode :=
  .jobject 0 30 [(.jstring 1 6 ("file".data), .jstring 9 11 ("zz:y.json".data))]
def c2parentC : JNode :=
  .jobject 0 30 [(.jstring 1 6 ("file".data), .jstring 9 10 ("m:x.json".data))]

/-- C2 witness: no sibling `file` property, an unresolvable `file`
value, and a resolvable target whose text yields no tree, each at a
concrete input. -/
theorem path_resolution_failure_modes_witness :
    resolvePathDefinition (some c2parentA) ("/a".data) c2folders c2fs = none ∧
    resolvePathDefinition (some c2parentB) ("/a".data) c2folders c2fs = none ∧
    resolvePathDefinition (some c2parentC) ("/a".data) c2folders c2fs =
      some ⟨c2target, 0, 0⟩ :=
  ⟨(path_resolution_failure_modes c2parentA ("/a".data) c2folders c2fs).1 rfl,
   (path_resolution_failure_modes c2parentB ("/a".data) c2folders c2fs).2.1
     (.jstring 1 6 ("file".data)) 9 11 ("zz:y.json".data) rfl rfl,
   (path_resolution_failure_modes c2parentC ("/a".data) c2folders c2fs).2.2
     (.jstring 1 6 ("file".data)) 9 10 ("m:x.json".data) c2target rfl rfl rfl⟩

/-- C2 counterexample: the target file resolves but its text does not
parse into a tree, and resolution still returns a location (top of the
target file) — refuting "returns no location at all" for that case. -/
theorem unparsable_target_returns_location_counterexample :
    resolvePathDefinition (some c2parentC) ("/a".data) c2folders c2fs =
      some ⟨c2target, 0, 0⟩ ∧
    resolvePathDefinition (some c2parentC) ("/a".data) c2folders c2fs ≠ none := by
  exact ⟨rfl, by decide⟩

theorem strategy1_eq_find? (domain relativePath : List Char) (fs : FileSystem)
    (f : WorkspaceFolder) :
    strategy1 domain relativePath fs f =
      ((if isMatchingFolder domain f.name then
          [joinPath [f.fsPath, "assets".data, domain, relativePath]]
        else []).find? fs.existsFile) := by
  unfold strategy1
  by_cases hm : isMatchingFolder domain f.name = true
  · cases he : fs.existsFile (joinPath [f.fsPath, "assets".data, domain, relativePath]) <;>
      simp [hm, he, List.find?_cons]
  · simp [hm]

theorem subdirHit_eq_find? (domain relativePath base : List Char)
    (fs : FileSystem) (entries : List (List Char × Bool)) :
    subdirHit domain relativePath base fs entries =
      (entries.filterMap (fun entry =>
        if entry.2 && isMatchingFolder domain entry.1 then
          some (joinPath [base, entry.1, "assets".data, domain, relativePath])
        else none)).find? fs.existsFile := by
  induction entries with
  | nil => rfl
  | cons e rest ih =>
    simp only [subdirHit, List.filterMap_cons]
    by_cases hm : (e.2 && isMatchingFolder domain e.1) = true
    · cases he : fs.existsFile (joinPath [base, e.1, "assets".data, domain, relativePath]) <;>
        simp [hm, he, List.find?_cons, ih]
    · simp [hm, ih]

theorem strategy2_eq_find? (domain relativePath : List Char) (fs : FileSystem)
    (f : WorkspaceFolder) :
    strategy2 domain relativePath fs f =
      (((fs.readDirectory f.fsPath).getD []).filterMap (fun entry =>
        if entry.2 && isMatchingFolder domain entry.1 then
          some (joinPath [f.fsPath, entry.1, "assets".data, domain, relativePath])
        else none)).find? fs.existsFile := by
  unfold strategy2
  cases h : fs.readDirectory f.fsPath with
  | none => simp
  | some entries => simp [subdirHit_eq_find?]

theorem candidateList_cons (domain relativePath : List Char)
    (f : WorkspaceFolder) (rest : List WorkspaceFolder) (fs : FileSystem) :
    candidateList domain relativePath (f :: rest) fs =
      ((if isMatchingFolder domain f.name then
          [joinPath [f.fsPath, "assets".data, domain, relativePath]]
        else [])
        ++ ((fs.readDirectory f.fsPath).getD []).filterMap (fun entry =>
          if entry.2 && isMatchingFolder domain entry.1 then
            some (joinPath [f.fsPath, entry.1, "assets".data, domain, relativePath])
          else none))
        ++ candidateList domain relativePath rest fs := by
  simp [candidateList, List.flatMap_cons]

/-- C3 (amended): `resolveVintageStoryPath` computes the candidate file
path `<dir>/assets/<domain>/<relativePath>` for every matching
workspace folder and every matching subdirectory, in editor order, and
returns the first candidate that exists on disk — it may test
candidates under several owning directories for the same token. -/
theorem resolve_tests_all_candidates (token domain relativePath : List Char)
    (folders : List WorkspaceFolder) (fs : FileSystem)
    (hsplit : splitOnChar ':' token = [domain, relativePath]) :
    resolveVintageStoryPath token folders fs =
      (candidateList domain relativePath folders fs).find? fs.existsFile := by
  simp only [resolveVintageStoryPath, hsplit]
  induction folders with
  | nil => rfl
  | cons f rest ih =>
    rw [resolveInFolders, candidateList_cons, List.find?_append, List.find?_append,
      ← strategy1_eq_find?, ← strategy2_eq_find?, ← ih]
    cases strategy1 domain relativePath fs f <;>
      cases strategy2 domain relativePath fs f <;>
        simp [Option.or]

def c3p1 : List Char := "ws/foo_1/assets/foo/a.json".data
def c3p2 : List Char := "ws/foo_2/assets/foo/a.json".data
def c3assets1 : List Char := "ws/foo_1/assets/foo".data
def c3fs : FileSystem :=
  ⟨fun p => p == c3p2 || p == c3assets1,
   fun p => if p == "ws".data then
       some [("foo_1".data, true), ("foo_2".data, true)]
     else none,
   fun _ => none⟩
def c3folders : List WorkspaceFolder := [⟨"ws".data, "ws".data⟩]
def c3token : List Char := "foo:a.json".data

/-- C3 counterexample: two subdirectories `foo_1` and `foo_2` both
match domain `foo`; `foo_1` owns `assets/foo` (so the spec's Domain
Locator picks it, and its single candidate is then missing), yet the
code goes on to test `foo_2`'s candidate and returns it — refuting
"exactly one candidate from the single directory chosen by the Domain
Locator". -/
theorem single_candidate_counterexample :
    resolveVintageStoryPath c3token c3folders c3fs = some c3p2 ∧
    spec_resolveReference c3token c3folders c3fs = none ∧
    resolveVintageStoryPath c3token c3folders c3fs ≠
      spec_resolveReference c3token c3folders c3fs := by
  exact ⟨rfl, rfl, by decide⟩

/-- C3 witness: the candidate-scan characterisation evaluated at the
two-subdirectory workspace. -/
theorem resolve_tests_all_candidates_witness :
    splitOnChar ':' c3token = ["foo".data, "a.json".data] ∧
    resolveVintageStoryPath c3token c3folders c3fs =
      (candidateList ("foo".data) ("a.json".data) c3folders c3fs).find?
        c3fs.existsFile :=
  ⟨by decide, resolve_tests_all_candidates c3token ("foo".data) ("a.json".data)
    c3folders c3fs (by decide)⟩

/-- C4 (amended): the resolver processes workspace folders one at a
time in editor-reported order, testing each folder's own name
(strategy 1) and then that same folder's immediate subdirectories
(strategy 2) before moving to the next folder; the first satisfying
match wins. -/
theorem resolve_interleaves_strategies (token domain relativePath : List Char)
    (folders : List WorkspaceFolder) (fs : FileSystem)
    (hsplit : splitOnChar ':' token = [domain, relativePath]) :
    resolveVintageStoryPath token folders fs =
      folders.findSome? (fun f =>
        (strategy1 domain relativePath fs f).or
          (strategy2 domain relativePath fs f)) := by
  simp only [resolveVintageStoryPath, hsplit]
  induction folders with
  | nil => rfl
  | cons f rest ih =>
    rw [resolveInFolders, List.findSome?_cons]
    cases strategy1 domain relativePath fs f <;>
      cases h2 : strategy2 domain relativePath fs f <;>
        simp [Option.or, h2, ih]

def c4p1 : List Char := "ws/foo_1/assets/foo/a.json".data
def c4pB : List Char := "/b/foo/assets/foo/a.json".data
def c4fs : FileSystem :=
  ⟨fun p => p == c4p1 || p == c4pB,
   fun p => if p == "ws".data then some [("foo_1".data, true)]
     else if p == "/b/foo".data then some [] else none,
   fun _ => none⟩
def c4folders : List WorkspaceFolder :=
  [⟨"ws".data, "ws".data⟩, ⟨"foo".data, "/b/foo".data⟩]
def c4token : List Char := "foo:a.json".data

/-- C4 counterexample: with folders `[ws, foo]`, the first folder's
matching subdirectory `foo_1` wins in the code, while running step 1
across all folders first would pick the second folder `foo` itself —
refuting "only after exhausting step 1 for all folders does it
enumerate any folder's subdirectories". -/
theorem strategy_ordering_counterexample :
    resolveVintageStoryPath c4token c4folders c4fs = some c4p1 ∧
    twoPhaseResolve c4token c4folders c4fs = some c4pB ∧
    resolveVintageStoryPath c4token c4folders c4fs ≠
      twoPhaseResolve c4token c4folders c4fs := by
  exact ⟨rfl, rfl, by decide⟩

/-- C4 witness: the per-folder interleaving characterisation evaluated
at the two-folder workspace. -/
theorem resolve_interleaves_strategies_witness :
    splitOnChar ':' c4token = ["foo".data, "a.json".data] ∧
    resolveVintageStoryPath c4token c4folders c4fs =
      c4folders.findSome? (fun f =>
        (strategy1 ("foo".data) ("a.json".data) c4fs f).or
          (strategy2 ("foo".data) ("a.json".data) c4fs f)) :=
  ⟨by decide, resolve_interleaves_strategies c4token ("foo".data)
    ("a.json".data) c4folders c4fs (by decide)⟩

theorem domainSubdirHit_iff (domain base : List Char) (fs : FileSystem)
    (entries : List (List Char × Bool)) :
    domainSubdirHit domain base fs entries = true ↔
      ∃ e ∈ entries, e.2 = true ∧ isMatchingFolder domain e.1 = true ∧
        fs.existsFile (joinPath [base, e.1, "assets".data, domain]) = true := by
  induction entries with
  | nil => simp [domainSubdirHit]
  | cons e rest ih =>
    simp only [domainSubdirHit]
    by_cases hc : (e.2 && isMatchingFolder domain e.1
        && fs.existsFile (joinPath [base, e.1, "assets".data, domain])) = true
    · simp only [if_pos hc]
      simp only [Bool.and_eq_true] at hc
      constructor
      · intro _
        exact ⟨e, List.mem_cons_self e rest, hc.1.1, hc.1.2, hc.2⟩
      · intro _
        trivial
    · simp only [if_neg hc, ih]
      constructor
      · rintro ⟨x, hx, h1, h2, h3⟩
        exact ⟨x, List.mem_cons_of_mem e hx, h1, h2, h3⟩
      · rintro ⟨x, hx, h1, h2, h3⟩
        rcases List.mem_cons.mp hx with rfl | hx2
        · simp [h1, h2, h3] at hc
        · exact ⟨x, hx2, h1, h2, h3⟩

/-- C7: the Domain Existence Check returns true exactly when some open
workspace folder, or some immediate subdirectory entry of one, has a
name matching the domain pattern and contains `assets/<domain>` on
disk; a name match without the assets directory does not count. -/
theorem checkDomainExists_iff (domain : List Char) (fs : FileSystem)
    (folders : List WorkspaceFolder) :
    checkDomainExists domain fs folders = true ↔
      ∃ f ∈ folders,
        (isMatchingFolder domain f.name = true ∧
          fs.existsFile (joinPath [f.fsPath, "assets".data, domain]) = true) ∨
        ∃ e ∈ (fs.readDirectory f.fsPath).getD [], e.2 = true ∧
          isMatchingFolder domain e.1 = true ∧
          fs.existsFile (joinPath [f.fsPath, e.1, "assets".data, domain]) = true := by
  induction folders with
  | nil => simp [checkDomainExists]
  | cons f rest ih =>
    simp only [checkDomainExists]
    by_cases h1 : (isMatchingFolder domain f.name
        && fs.existsFile (joinPath [f.fsPath, "assets".data, domain])) = true
    · simp only [if_pos h1]
      simp only [Bool.and_eq_true] at h1
      constructor
      · intro _
        exact ⟨f, List.mem_cons_self f rest, Or.inl ⟨h1.1, h1.2⟩⟩
      · intro _
        trivial
    · simp only [if_neg h1]
      by_cases h2 : (match fs.readDirectory f.fsPath with
          | none => false
          | some entries => domainSubdirHit domain f.fsPath fs entries) = true
      · simp only [if_pos h2]
        constructor
        · intro _
          refine ⟨f, List.mem_cons_self f rest, Or.inr ?_⟩
          cases hr : fs.readDirectory f.fsPath with
          | none =>
            rw [hr] at h2
            simp at h2
          | some entries =>
            rw [hr] at h2
            have hhit : domainSubdirHit domain f.fsPath fs entries = true := h2
            have := (domainSubdirHit_iff domain f.fsPath fs entries).mp hhit
            simpa using this
        · intro _
          trivial
      · simp only [if_neg h2, ih]
        constructor
        · rintro ⟨x, hx, hcase⟩
          exact ⟨x, List.mem_cons_of_mem f hx, hcase⟩
        · rintro ⟨x, hx, hcase⟩
          rcases List.mem_cons.mp hx with rfl | hx2
          · rcases hcase with ⟨ha, hb⟩ | ⟨e, he, ha, hb, hex⟩
            · simp [ha, hb] at h1
            · cases hr : fs.readDirectory x.fsPath with
              | none =>
                rw [hr] at he
                simp at he
              | some entries =>
                rw [hr] at he
                simp at he
                have hhit : domainSubdirHit domain x.fsPath fs entries = true :=
                  (domainSubdirHit_iff domain x.fsPath fs entries).mpr
                    ⟨e, he, ha, hb, hex⟩
                rw [hr] at h2
                exact absurd hhit h2
          · exact ⟨x, hx2, hcase⟩

/-- C8: any token whose colon count differs from one (`split(':')` then
gives a part count other than two) is out of scope: cross-reference
resolution returns absent. -/
theorem malformed_token_returns_none (pathStr : List Char)
    (folders : List WorkspaceFolder) (fs : FileSystem)
    (h : pathStr.count ':' ≠ 1) :
    resolveVintageStoryPath pathStr folders fs = none := by
  have hlen : (splitOnChar ':' pathStr).length ≠ 2 := by
    rw [length_splitOnChar]
    omega
  unfold resolveVintageStoryPath
  cases hs : splitOnChar ':' pathStr with
  | nil => rfl
  | cons a t =>
    cases t with
    | nil => rfl
    | cons b t2 =>
      cases t2 with
      | nil =>
        rw [hs] at hlen
        simp at hlen
      | cons c3 t3 => rfl

/-- C8 witness: the zero-colon token `abc` and the two-colon token
`a:b:c` both resolve to absent. -/
theorem malformed_token_returns_none_witness :
    ("a:b:c".data).count ':' ≠ 1 ∧
    resolveVintageStoryPath ("a:b:c".data) []
      ⟨fun _ => false, fun _ => none, fun _ => none⟩ = none ∧
    resolveVintageStoryPath ("abc".data) []
      ⟨fun _ => false, fun _ => none, fun _ => none⟩ = none :=
  ⟨by decide,
   malformed_token_returns_none ("a:b:c".data) []
     ⟨fun _ => false, fun _ => none, fun _ => none⟩ (by decide),
   malformed_token_returns_none ("abc".data) []
     ⟨fun _ => false, fun _ => none, fun _ => none⟩ (by decide)⟩
